import Mathlib

/-!
Verification development for the FSSPOS point-of-sale front-end.

The development shallowly embeds the cart, catalog-filtering and
barcode-scanner logic of the repository (src/src/components/POS.tsx and
the BarcodeScanner component) as pure Lean functions and proves the
documented properties about them.
-/

namespace FSSPOS

/-- A sellable product, following the data model of the repository
(`Product` in src/types): identity `id`, `name`, free-text `category`,
`price` (held in minor units; no property below depends on it), `stock`,
optional `barcode`, optional `image_url`. -/
structure Product where
  id : Nat
  name : String
  category : String
  price : Nat
  stock : Nat
  barcode : Option String
  image_url : Option String
  deriving DecidableEq, Repr

/-- One cart line: a product and its selected quantity
(`CartItem` in the repository's types). Quantities are JS numbers used as
integers, so they are embedded as `Int`. -/
structure CartItem where
  product : Product
  quantity : Int
  deriving DecidableEq, Repr

/-- JavaScript `String.prototype.toLowerCase` restricted to the character
range the repository's data uses: every character is lowered with
`Char.toLower`. -/
def jsToLower (s : String) : String :=
  String.mk (s.data.map Char.toLower)

/-- `leadsWith needle hay` is true when `needle` is an initial segment of
`hay` (character-by-character comparison, as JS string search does). -/
def leadsWith : List Char → List Char → Bool
  | [], _ => true
  | _ :: _, [] => false
  | a :: as, b :: bs => a == b && leadsWith as bs

/-- Contiguous-substring test on character lists: some drop of the
haystack starts with the needle. -/
def includesList (hay needle : List Char) : Bool :=
  (List.range (hay.length + 1)).any (fun i => leadsWith needle (hay.drop i))

/-- JavaScript `String.prototype.includes`: contiguous substring
containment. -/
def jsIncludes (hay needle : String) : Bool :=
  includesList hay.data needle.data

/-- The `filteredProducts` computation of src/src/components/POS.tsx
(lines 37-41): keep the products whose lowercased `name` contains the
lowercased search term, and whose `category` equals the selected category
unless the selected category is the sentinel "all". -/
def filteredProducts (products : List Product) (searchTerm selectedCategory : String) :
    List Product :=
  products.filter fun product =>
    let matchesSearch := jsIncludes (jsToLower product.name) (jsToLower searchTerm)
    let matchesCategory := (selectedCategory == "all") || (product.category == selectedCategory)
    matchesSearch && matchesCategory

/-- The `categories` computation of src/src/components/POS.tsx (line 35):
`['all', ...Array.from(new Set(products.map(p => p.category)))]`.
A JS `Set` collects elements in insertion order, keeping the first
occurrence of each, which `insertUnique` folded from the left embeds. -/
def insertUnique (acc : List String) (x : String) : List String :=
  if x ∈ acc then acc else acc ++ [x]

/-- First-occurrence deduplication in encounter order: the embedding of
`Array.from(new Set(xs))`. -/
def firstSeenDedup (xs : List String) : List String :=
  xs.foldl insertUnique []

/-- The category list shown in the POS screen: the sentinel "all"
followed by the distinct categories in first-seen order. -/
def categories (products : List Product) : List String :=
  "all" :: firstSeenDedup (products.map (fun p => p.category))

/-- The barcode lookup inlined in `handleBarcodeScanned`
(src/src/components/POS.tsx line 50): `products.find(p => p.barcode === barcode)`,
an exact string comparison against the optional `barcode` field, returning
the first match or a miss. -/
def findByBarcode (products : List Product) (code : String) : Option Product :=
  products.find? (fun p => p.barcode == some code)

/-- Modelled from the spec: `addItem(product)` of the Cart component
(`CartContext`, not present among the provided sources; section 4.2 of the
spec): if a line for `product.id` exists, increment its quantity by 1;
otherwise append a new line with quantity 1. -/
def addItem (product : Product) (items : List CartItem) : List CartItem :=
  if items.any (fun it => it.product.id == product.id) then
    items.map (fun it =>
      if it.product.id == product.id then { it with quantity := it.quantity + 1 } else it)
  else
    items ++ [{ product := product, quantity := 1 }]

/-- Modelled from the spec: `updateQuantity(productId, newQuantity)` of the
Cart component (`CartContext`, not present among the provided sources;
section 4.2 of the spec): sets the line's quantity to `newQuantity`; if
`newQuantity ≤ 0`, removes the line; an unknown `productId` is a no-op. -/
def updateQuantity (productId : Nat) (newQuantity : Int) (items : List CartItem) :
    List CartItem :=
  if newQuantity ≤ 0 then
    items.filter (fun it => !(it.product.id == productId))
  else
    items.map (fun it =>
      if it.product.id == productId then { it with quantity := newQuantity } else it)

/-- Kind of the transient feedback element `handleBarcodeScanned` creates. -/
inductive NoticeKind where
  | success
  | failure
  deriving DecidableEq, Repr

/-- The transient feedback element `handleBarcodeScanned` appends to the
document: its kind (green success / red failure), its text content, and
the timeout after which it is removed. -/
structure Notice where
  kind : NoticeKind
  text : String
  autoDismissMs : Nat
  deriving DecidableEq, Repr

/-- Result of handling one scanned barcode: the new cart lines, the
notice shown, and the `showBarcodeScanner` flag after handling. -/
structure ScanHandled where
  items : List CartItem
  notice : Notice
  showBarcodeScanner : Bool
  deriving DecidableEq, Repr

/-- `handleBarcodeScanned` of src/src/components/POS.tsx (lines 48-73):
look the barcode up in the catalog; on a hit add the product to the cart
and show a success notice for 3000 ms; on a miss leave the cart alone and
show a failure notice naming the barcode for 3000 ms; either way close the
scanner modal. -/
def handleBarcodeScanned (products : List Product) (items : List CartItem)
    (barcode : String) : ScanHandled :=
  match findByBarcode products barcode with
  | some product =>
      { items := addItem product items
        notice :=
          { kind := NoticeKind.success
            text := "Added " ++ product.name ++ " to cart"
            autoDismissMs := 3000 }
        showBarcodeScanner := false }
  | none =>
      { items := items
        notice :=
          { kind := NoticeKind.failure
            text := "Product not found for barcode: " ++ barcode
            autoDismissMs := 3000 }
        showBarcodeScanner := false }

/-- Capture mode of the BarcodeScanner component: `'camera' | 'input'`. -/
inductive ScannerMode where
  | camera
  | input
  deriving DecidableEq, Repr

/-- The observable state of the BarcodeScanner component together with the
number of capture sessions started and not yet stopped (an
environment-level fact the component cannot observe once it drops its
ref). `htmlQrCodeRef` records whether `html5QrCodeRef.current` is
non-null. -/
structure ScannerState where
  scannerMode : ScannerMode
  isScanning : Bool
  error : String
  cameras : List String
  htmlQrCodeRef : Bool
  runningSessions : Nat
  deriving DecidableEq, Repr

/-- The component's state when the scanner modal has just been opened in
camera mode: nothing scanned yet, no session, no ref. -/
def openedScannerState : ScannerState :=
  { scannerMode := ScannerMode.camera
    isScanning := false
    error := ""
    cameras := []
    htmlQrCodeRef := false
    runningSessions := 0 }

/-- `initializeScanner` of the BarcodeScanner component (lines 37-84 of
its source): clear the error, store the enumerated devices; when the
device list is empty set the "no camera" error and switch to manual
input without creating a session; otherwise create the `Html5Qrcode`
object (populating the ref) and start it — `startOk` stands for whether
`start` resolves; on rejection the catch block sets the failure message
and switches to manual input. -/
def initScanner (devices : List String) (startOk : Bool) (s : ScannerState) :
    ScannerState :=
  let s1 := { s with error := "", cameras := devices }
  if devices.length = 0 then
    { s1 with
      error := "No cameras found. Please use manual input."
      scannerMode := ScannerMode.input }
  else
    let s2 := { s1 with htmlQrCodeRef := true }
    if startOk then
      { s2 with runningSessions := s2.runningSessions + 1, isScanning := true }
    else
      { s2 with
        error := "Failed to initialize camera. Please check permissions or use manual input."
        scannerMode := ScannerMode.input }

/-- `cleanup` of the BarcodeScanner component (lines 86-101 of its
source): stop and clear the session only when the ref is populated AND
the `isScanning` value the closure captured is true, then reset
`isScanning` and null the refs. `capturedIsScanning` is the `isScanning`
value baked into the closure that runs: the current render's value for a
direct `handleClose` call, but the value from the render that registered
the effect for the effect's cleanup. -/
def cleanup (capturedIsScanning : Bool) (s : ScannerState) : ScannerState :=
  let s1 :=
    if s.htmlQrCodeRef && capturedIsScanning then
      { s with runningSessions := s.runningSessions - 1 }
    else s
  { s1 with isScanning := false, htmlQrCodeRef := false }

/-- The decode-success exit path as the component executes it. The effect
`useEffect(..., [isOpen, scannerMode, selectedCamera])` runs on the render
in which the modal opened, where `isScanning` is still false, and its
cleanup closure captures that value. `initializeScanner` then starts the
session and sets `isScanning` true, but the effect does not re-run (its
deps exclude `isScanning`). On a successful decode, `handleScanSuccess`
calls `onScan` and `onClose`; the `isOpen` prop flips, and React runs the
registered cleanup — with the stale captured value. -/
def scanSuccessExitState : ScannerState :=
  let captured := openedScannerState.isScanning
  let s1 := initScanner ["cam0"] true openedScannerState
  cleanup captured s1

/-- Concrete catalog entries used in witnesses, following the spec's
scenario data (section 8). -/
def cola : Product :=
  { id := 1, name := "Cola", category := "drinks", price := 150, stock := 10
    barcode := some "111", image_url := none }

/-- A second product carrying the same barcode as `cola`, for the
duplicate-barcode tie-break witness. -/
def colaZero : Product :=
  { id := 2, name := "Cola Zero", category := "drinks", price := 150, stock := 5
    barcode := some "111", image_url := none }

/-- A product whose free-text category is literally the sentinel "all". -/
def allCategoryProduct : Product :=
  { id := 3, name := "Gift Card", category := "all", price := 1000, stock := 3
    barcode := none, image_url := none }

/-! ### Helper lemmas about the string-containment embedding -/

lemma leadsWith_iff (n h : List Char) : leadsWith n h = true ↔ ∃ r, h = n ++ r := by
  induction n generalizing h with
  | nil =>
    simp [leadsWith]
  | cons a as ih =>
    cases h with
    | nil => simp [leadsWith]
    | cons b bs =>
      simp only [leadsWith, Bool.and_eq_true, beq_iff_eq, ih, List.cons_append,
        List.cons.injEq]
      constructor
      · rintro ⟨rfl, r, rfl⟩
        exact ⟨r, rfl, rfl⟩
      · rintro ⟨r, rfl, rfl⟩
        exact ⟨rfl, r, rfl⟩

lemma includesList_iff (hay needle : List Char) :
    includesList hay needle = true ↔ ∃ l r, hay = l ++ needle ++ r := by
  unfold includesList
  rw [List.any_eq_true]
  constructor
  · rintro ⟨i, _, hpre⟩
    obtain ⟨r, hr⟩ := (leadsWith_iff needle (hay.drop i)).mp hpre
    exact ⟨hay.take i, r, by rw [List.append_assoc, ← hr, List.take_append_drop]⟩
  · rintro ⟨l, r, rfl⟩
    refine ⟨l.length, ?_, ?_⟩
    · rw [List.mem_range]
      have hlen : (l ++ needle ++ r).length = l.length + needle.length + r.length := by
        simp [List.length_append, Nat.add_assoc]
      omega
    · rw [List.append_assoc, List.drop_left]
      exact (leadsWith_iff needle (needle ++ r)).mpr ⟨r, rfl⟩

lemma jsIncludes_empty_needle (s : String) : jsIncludes s "" = true := by
  unfold jsIncludes
  rw [includesList_iff]
  exact ⟨[], s.data, by simp⟩

/-- Spec-side keep condition for `filter(searchTerm, category)`, written
from the spec's words: the product's name case-insensitively contains the
search term (some decomposition exhibits the lowered term as a contiguous
substring of the lowered name), and the category matches exactly unless
the sentinel "all" waives the check. -/
def specFilterKeeps (searchTerm category : String) (p : Product) : Prop :=
  (∃ l r, (jsToLower p.name).data = l ++ (jsToLower searchTerm).data ++ r) ∧
    (category = "all" ∨ p.category = category)

/-- C2: `filter(searchTerm, category)` returns exactly the subsequence of
products whose name case-insensitively contains the search term and whose
category equals the selected category, with the category condition waived
when the selected category is the sentinel "all". -/
theorem filteredProducts_spec (ps : List Product) (t c : String) :
    (filteredProducts ps t c).Sublist ps ∧
    ∀ p, p ∈ filteredProducts ps t c ↔ p ∈ ps ∧ specFilterKeeps t c p := by
  refine ⟨List.filter_sublist ps, ?_⟩
  intro p
  simp only [filteredProducts, List.mem_filter, Bool.and_eq_true, Bool.or_eq_true,
    beq_iff_eq, specFilterKeeps, jsIncludes, includesList_iff]

/-- C3 counterexample: with the one-product catalog `[cola]` and the
search term "x", `filter("x", "all")` returns the empty list, not all
products — the sentinel waives only the category condition, not the
search term. -/
theorem filter_all_counterexample :
    filteredProducts [cola] "x" "all" ≠ [cola] := by decide

/-- C3 amended: `filter(term, "all")` waives only the category
restriction: it returns exactly the products whose name case-insensitively
contains `term`; in particular with the empty search term it returns all
products. -/
theorem filter_all_amended (ps : List Product) (t : String) :
    filteredProducts ps t "all"
      = ps.filter (fun p => jsIncludes (jsToLower p.name) (jsToLower t)) ∧
    filteredProducts ps "" "all" = ps := by
  constructor
  · unfold filteredProducts
    refine List.filter_congr ?_
    intro p _
    simp
  · unfold filteredProducts
    rw [List.filter_eq_self]
    intro p _
    have hlow : jsToLower "" = "" := rfl
    simp [hlow, jsIncludes_empty_needle]

/-! ### Barcode lookup -/

lemma find?_append_of_none {α : Type} (p : α → Bool) (l1 l2 : List α) :
    List.find? p l1 = none → List.find? p (l1 ++ l2) = List.find? p l2 := by
  induction l1 with
  | nil => intro _; rfl
  | cons a as ih =>
    intro h
    by_cases hpa : p a = true
    · rw [List.find?_cons_of_pos as hpa] at h
      exact absurd h (by simp)
    · rw [List.find?_cons_of_neg as hpa] at h
      rw [List.cons_append, List.find?_cons_of_neg _ hpa]
      exact ih h

/-- C4: `findByBarcode(code)` returns a miss exactly when no product's
barcode is the exact string `code` (in particular on the empty catalog and
when `barcode` is absent on all products, since an absent barcode never
equals `code`), and a hit is a catalog member whose barcode equals `code`
under exact, case-sensitive string comparison. -/
theorem findByBarcode_spec (ps : List Product) (code : String) :
    (findByBarcode ps code = none ↔ ∀ p ∈ ps, p.barcode ≠ some code) ∧
    (∀ p, findByBarcode ps code = some p → p ∈ ps ∧ p.barcode = some code) ∧
    findByBarcode ([] : List Product) code = none := by
  refine ⟨?_, ?_, rfl⟩
  · unfold findByBarcode
    rw [List.find?_eq_none]
    constructor
    · intro h p hp
      have := h p hp
      simpa using this
    · intro h p hp
      simpa using h p hp
  · intro p hfind
    have hfind2 : ps.find? (fun q => q.barcode == some code) = some p := hfind
    refine ⟨List.mem_of_find?_eq_some hfind2, ?_⟩
    have := List.find?_some hfind2
    simpa using this

theorem findByBarcode_spec_witness :
    cola ∈ [cola] ∧ cola.barcode = some "111" :=
  (findByBarcode_spec [cola] "111").2.1 cola (by decide)

/-- C10: when several products carry the same barcode string, the lookup
is deterministic and returns the first matching product in catalog order:
any product `p` with a matching barcode, placed after a block of
non-matching products, is the result no matter what follows it. -/
theorem findByBarcode_first_match (ps1 ps2 : List Product) (p : Product) (code : String)
    (hp : p.barcode = some code) (h1 : ∀ q ∈ ps1, q.barcode ≠ some code) :
    findByBarcode (ps1 ++ p :: ps2) code = some p := by
  have h0 : List.find? (fun q => q.barcode == some code) ps1 = none := by
    rw [List.find?_eq_none]
    intro q hq
    simp [h1 q hq]
  unfold findByBarcode
  rw [find?_append_of_none _ _ _ h0]
  exact List.find?_cons_of_pos _ (by simp [hp])

theorem findByBarcode_first_match_witness :
    findByBarcode ([] ++ cola :: [colaZero]) "111" = some cola :=
  findByBarcode_first_match [] [colaZero] cola "111" (by decide) (by decide)

/-! ### Cart operations -/

lemma addItem_fresh (p : Product) (items : List CartItem)
    (h : ∀ it ∈ items, it.product.id ≠ p.id) :
    addItem p items = items ++ [{ product := p, quantity := 1 }] := by
  have hany : items.any (fun it => it.product.id == p.id) = false := by
    rw [List.any_eq_false]
    intro it hit
    simp [h it hit]
  unfold addItem
  rw [if_neg (by simp [hany])]

lemma addItem_bump (p : Product) (items : List CartItem) (q : Int)
    (h : ∀ it ∈ items, it.product.id ≠ p.id) :
    addItem p (items ++ [{ product := p, quantity := q }])
      = items ++ [{ product := p, quantity := q + 1 }] := by
  unfold addItem
  rw [if_pos]
  · rw [List.map_append]
    congr 1
    · have hmap : items.map (fun it =>
          if it.product.id == p.id then { it with quantity := it.quantity + 1 } else it)
          = items.map id := by
        apply List.map_congr_left
        intro it hit
        simp [h it hit]
      rw [hmap, List.map_id]
    · simp
  · rw [List.any_eq_true]
    exact ⟨{ product := p, quantity := q },
      List.mem_append_right _ (List.mem_singleton_self _), by simp⟩

/-- C1: `addItem(product)` increments the quantity of an existing line
for `product.id` by 1 and otherwise appends a new line with quantity 1;
consequently, after `n` calls on the same product starting from a cart
with no line for it, the cart holds the original lines followed by
exactly one line for that product, of quantity `n`. -/
theorem addItem_repeated_spec (p : Product) (items : List CartItem)
    (h : ∀ it ∈ items, it.product.id ≠ p.id) (n : Nat) (hn : 0 < n) :
    (addItem p)^[n] items = items ++ [{ product := p, quantity := (n : Int) }] ∧
    ((addItem p)^[n] items).filter (fun it => it.product.id == p.id)
      = [{ product := p, quantity := (n : Int) }] := by
  have main : ∀ m : Nat, (addItem p)^[m + 1] items
      = items ++ [{ product := p, quantity := ((m + 1 : Nat) : Int) }] := by
    intro m
    induction m with
    | zero =>
      have hc : ((0 + 1 : Nat) : Int) = (1 : Int) := by norm_num
      rw [Function.iterate_succ_apply', Function.iterate_zero_apply, hc]
      exact addItem_fresh p items h
    | succ k ih =>
      have hc : ((k + 1 + 1 : Nat) : Int) = ((k + 1 : Nat) : Int) + 1 := by
        push_cast
        ring
      rw [Function.iterate_succ_apply', ih, hc]
      exact addItem_bump p items _ h
  obtain ⟨m, rfl⟩ : ∃ m, n = m + 1 := ⟨n - 1, by omega⟩
  refine ⟨main m, ?_⟩
  rw [main m, List.filter_append]
  have h1 : items.filter (fun it => it.product.id == p.id) = [] := by
    rw [List.filter_eq_nil_iff]
    intro it hit
    simp [h it hit]
  rw [h1, List.nil_append]
  simp

theorem addItem_repeated_spec_witness :
    (addItem cola)^[2] [] = [{ product := cola, quantity := (2 : Int) }] ∧
    ((addItem cola)^[2] []).filter (fun it => it.product.id == cola.id)
      = [{ product := cola, quantity := (2 : Int) }] := by
  have h := addItem_repeated_spec cola [] (by simp) 2 (by norm_num)
  simpa using h

/-- C5: `updateQuantity(productId, newQuantity)` removes the line when
`newQuantity ≤ 0` (no line for `productId` survives, the other lines are
kept in order); sets the line's quantity to exactly `newQuantity` when it
is positive; and is a no-op when no line carries `productId`. -/
theorem updateQuantity_spec (productId : Nat) (q : Int) (items : List CartItem) :
    (q ≤ 0 → updateQuantity productId q items
        = items.filter (fun it => !(it.product.id == productId))) ∧
    (q ≤ 0 → ∀ it ∈ updateQuantity productId q items, it.product.id ≠ productId) ∧
    (0 < q → updateQuantity productId q items
        = items.map (fun it =>
            if it.product.id == productId then { it with quantity := q } else it)) ∧
    ((∀ it ∈ items, it.product.id ≠ productId) → updateQuantity productId q items = items) := by
  refine ⟨?_, ?_, ?_, ?_⟩
  · intro hq
    unfold updateQuantity
    rw [if_pos hq]
  · intro hq it hit
    unfold updateQuantity at hit
    rw [if_pos hq] at hit
    have := List.of_mem_filter hit
    simpa using this
  · intro hq
    unfold updateQuantity
    rw [if_neg (by omega)]
  · intro h
    unfold updateQuantity
    by_cases hq : q ≤ 0
    · rw [if_pos hq, List.filter_eq_self]
      intro it hit
      simp [h it hit]
    · rw [if_neg hq]
      have hmap : items.map (fun it =>
          if it.product.id == productId then { it with quantity := q } else it)
          = items.map id := by
        apply List.map_congr_left
        intro it hit
        simp [h it hit]
      rw [hmap, List.map_id]

theorem updateQuantity_spec_witness :
    updateQuantity 5 3 [{ product := cola, quantity := 2 }]
      = [{ product := cola, quantity := 2 }] :=
  (updateQuantity_spec 5 3 [{ product := cola, quantity := 2 }]).2.2.2 (by decide)

/-! ### Category derivation -/

lemma foldl_insertUnique_spec (xs : List String) :
    ∀ acc : List String, ∃ t : List String,
      xs.foldl insertUnique acc = acc ++ t ∧ t.Sublist xs ∧ t.Nodup ∧
      (∀ y ∈ t, y ∉ acc) ∧ (∀ y ∈ xs, y ∈ acc ∨ y ∈ t) ∧
      t.Pairwise (fun a b => xs.indexOf a < xs.indexOf b) := by
  induction xs with
  | nil =>
    intro acc
    exact ⟨[], by simp, List.Sublist.refl _, List.nodup_nil, by simp, by simp,
      List.Pairwise.nil⟩
  | cons x xs ih =>
    intro acc
    by_cases hx : x ∈ acc
    · obtain ⟨t, heq, hsub, hnd, hnotin, hcov, hord⟩ := ih acc
      have hfold : (x :: xs).foldl insertUnique acc = xs.foldl insertUnique acc := by
        simp [List.foldl_cons, insertUnique, hx]
      refine ⟨t, by rw [hfold]; exact heq, hsub.cons x, hnd, hnotin, ?_, ?_⟩
      · intro y hy
        rcases List.mem_cons.mp hy with rfl | hy
        · exact Or.inl hx
        · exact hcov y hy
      · refine List.Pairwise.imp_of_mem ?_ hord
        intro a b ha hb hab
        have hxa : x ≠ a := fun h0 => hnotin a ha (h0 ▸ hx)
        have hxb : x ≠ b := fun h0 => hnotin b hb (h0 ▸ hx)
        rw [List.indexOf_cons_ne xs hxa, List.indexOf_cons_ne xs hxb]
        omega
    · obtain ⟨t, heq, hsub, hnd, hnotin, hcov, hord⟩ := ih (acc ++ [x])
      have hfold : (x :: xs).foldl insertUnique acc = xs.foldl insertUnique (acc ++ [x]) := by
        simp [List.foldl_cons, insertUnique, hx]
      have hxt : ∀ y ∈ t, x ≠ y := by
        intro y hy h0
        exact hnotin y hy (by rw [← h0]; exact List.mem_append_right _ (List.mem_singleton_self x))
      refine ⟨x :: t, ?_, hsub.cons₂ x, ?_, ?_, ?_, ?_⟩
      · rw [hfold, heq, List.append_assoc]
        rfl
      · refine List.nodup_cons.mpr ⟨?_, hnd⟩
        intro hmemt
        exact hnotin x hmemt (by simp)
      · intro y hy
        rcases List.mem_cons.mp hy with rfl | hy
        · exact hx
        · intro hyacc
          exact hnotin y hy (List.mem_append_left _ hyacc)
      · intro y hy
        rcases List.mem_cons.mp hy with rfl | hy
        · exact Or.inr (List.mem_cons_self _ _)
        · rcases hcov y hy with h0 | h0
          · rcases List.mem_append.mp h0 with h1 | h1
            · exact Or.inl h1
            · rw [List.mem_singleton.mp h1]
              exact Or.inr (List.mem_cons_self _ _)
          · exact Or.inr (List.mem_cons_of_mem _ h0)
      · refine List.pairwise_cons.mpr ⟨?_, ?_⟩
        · intro b hb
          rw [List.indexOf_cons_self, List.indexOf_cons_ne xs (hxt b hb)]
          omega
        · refine List.Pairwise.imp_of_mem ?_ hord
          intro a b ha hb hab
          rw [List.indexOf_cons_ne xs (hxt a ha), List.indexOf_cons_ne xs (hxt b hb)]
          omega

/-- C6 counterexample: a product whose free-text category is literally
the sentinel string "all" makes `categories()` return the sentinel twice,
so the returned labels are not pairwise distinct. -/
theorem categories_counterexample :
    categories [allCategoryProduct] = ["all", "all"] ∧
    ¬ (categories [allCategoryProduct]).Nodup := by decide

/-- C6 amended: provided no product's category equals the sentinel "all",
`categories()` returns the sentinel "all" first, followed by the distinct
category labels present in first-seen order: the tail is a subsequence of
the category stream, pairwise distinct, holds a label exactly when the
catalog contains it, and is strictly sorted by the position of each
label's first occurrence in the stream — which determines it uniquely as
the first-seen deduplication. -/
theorem categories_amended (ps : List Product)
    (h : ∀ p ∈ ps, p.category ≠ "all") :
    (categories ps).head? = some "all" ∧
    (categories ps).Nodup ∧
    (∀ c, c ∈ categories ps ↔ c = "all" ∨ c ∈ ps.map (fun p => p.category)) ∧
    ∃ t, categories ps = "all" :: t ∧ t.Sublist (ps.map (fun p => p.category)) ∧
      t.Pairwise (fun a b =>
        (ps.map (fun p => p.category)).indexOf a
          < (ps.map (fun p => p.category)).indexOf b) := by
  obtain ⟨t, heq, hsub, hnd, hnotin, hcov, hord⟩ :=
    foldl_insertUnique_spec (ps.map (fun p => p.category)) []
  have hfs : firstSeenDedup (ps.map (fun p => p.category)) = t := by
    unfold firstSeenDedup
    rw [heq]
    rfl
  have hcat : categories ps = "all" :: t := by
    unfold categories
    rw [hfs]
  have hallnot : "all" ∉ t := by
    intro hmem
    obtain ⟨p, hp, hpc⟩ := List.mem_map.mp (hsub.subset hmem)
    exact h p hp hpc
  refine ⟨by rw [hcat]; rfl, ?_, ?_, ⟨t, hcat, hsub, hord⟩⟩
  · rw [hcat]
    exact List.nodup_cons.mpr ⟨hallnot, hnd⟩
  · intro c
    rw [hcat, List.mem_cons]
    constructor
    · rintro (rfl | hc)
      · exact Or.inl rfl
      · exact Or.inr (hsub.subset hc)
    · rintro (rfl | hc)
      · exact Or.inl rfl
      · rcases hcov c hc with h0 | h0
        · exact absurd h0 (List.not_mem_nil c)
        · exact Or.inr h0

theorem categories_amended_witness :
    (categories [cola]).head? = some "all" :=
  (categories_amended [cola] (by decide)).1

/-! ### Scanner behaviour -/

/-- C9: when camera enumeration returns zero devices, the scanner
switches to manual mode and surfaces the "no camera" message; no capture
session is started and nothing else of the scanner state is touched —
the condition is not fatal. -/
theorem no_camera_spec (startOk : Bool) (s : ScannerState) :
    (initScanner [] startOk s).scannerMode = ScannerMode.input ∧
    (initScanner [] startOk s).error = "No cameras found. Please use manual input." ∧
    (initScanner [] startOk s).runningSessions = s.runningSessions ∧
    (initScanner [] startOk s).isScanning = s.isScanning ∧
    (initScanner [] startOk s).htmlQrCodeRef = s.htmlQrCodeRef :=
  ⟨rfl, rfl, rfl, rfl, rfl⟩

/-- C7: on the decode-success exit path the effect cleanup runs with the
stale `isScanning` value captured when the effect was registered (false),
so `stop()`/`clear()` are skipped: the capture session stays running
(`runningSessions = 1`) even though the component has dropped its ref.
Had the cleanup used the live `isScanning` value, the session would have
been stopped; and calling the cleanup when no session is open is a safe
no-op on the scanner state. -/
theorem scanner_cleanup_stale_capture :
    scanSuccessExitState.runningSessions = 1 ∧
    scanSuccessExitState.isScanning = false ∧
    scanSuccessExitState.htmlQrCodeRef = false ∧
    (cleanup (initScanner ["cam0"] true openedScannerState).isScanning
        (initScanner ["cam0"] true openedScannerState)).runningSessions = 0 ∧
    cleanup false openedScannerState = openedScannerState ∧
    cleanup false scanSuccessExitState = scanSuccessExitState :=
  ⟨rfl, rfl, rfl, rfl, rfl, rfl⟩

/-- C8: handling a scanned barcode that matches no catalog product leaves
the cart unchanged, shows the failure notice naming the unresolved
barcode with a 3000 ms auto-dismiss, and closes the scanner modal. -/
theorem barcode_miss_spec (products : List Product) (items : List CartItem)
    (barcode : String) (h : findByBarcode products barcode = none) :
    (handleBarcodeScanned products items barcode).items = items ∧
    (handleBarcodeScanned products items barcode).notice =
      { kind := NoticeKind.failure
        text := "Product not found for barcode: " ++ barcode
        autoDismissMs := 3000 } ∧
    (handleBarcodeScanned products items barcode).showBarcodeScanner = false := by
  unfold handleBarcodeScanned
  rw [h]
  exact ⟨rfl, rfl, rfl⟩

theorem barcode_miss_spec_witness :
    (handleBarcodeScanned [] [] "222").items = [] ∧
    (handleBarcodeScanned [] [] "222").notice =
      { kind := NoticeKind.failure
        text := "Product not found for barcode: " ++ "222"
        autoDismissMs := 3000 } ∧
    (handleBarcodeScanned [] [] "222").showBarcodeScanner = false :=
  barcode_miss_spec [] [] "222" (by decide)

end FSSPOS
